import Mathlib

/-!
Verification development for the `influx_inspect cardinality` command
(`cmd/influx_inspect/cardinality/cardinality.go`).

The Go source is shallowly embedded below:
* raw storage keys are `List Char` (Go `[]byte` of ASCII text);
* Go's `bytes.Cut` is `cut`;
* `strconv.Atoi` is `atoi` (64-bit `int` range) and the Go conversion
  `uint64(id)` is `uint64OfInt`;
* the nested Go maps `databaseRetentionPolicies` are association lists with
  value semantics: `initFieldsAndSeries` and the per-key update are expressed
  by returning the updated map, which is equivalent to the source's in-place
  mutation through the `*fieldsAndSeries` pointer;
* `filepath.Walk` over the data directory is `walkTree` over an `FsTree`
  whose children are listed in the lexical name order in which
  `filepath.Walk` visits them;
* external collaborators that are not part of this package (the `report`
  Counters, `models.ParseKey`, the TSM reader and the shard-dir walker) are
  modelled from the spec, as flagged on their doc comments.
-/

/- ===== Key decomposition (bytes.Cut, source line 118) ===== -/

/-- `beginsWith p s` is true when the byte string `s` starts with `p`. -/
def beginsWith : List Char → List Char → Bool
  | [], _ => true
  | _ :: _, [] => false
  | p :: ps, c :: cs => p = c && beginsWith ps cs

/-- `containsSeq sep s` is true when `sep` occurs as a contiguous run
inside `s` (Go `bytes.Contains` / `bytes.Index >= 0`). -/
def containsSeq (sep : List Char) : List Char → Bool
  | [] => beginsWith sep []
  | c :: t => beginsWith sep (c :: t) || containsSeq sep t

/-- Embedding of Go `bytes.Cut(s, sep)`: split `s` at the first occurrence of
`sep`, returning `(before, after, found)`; when `sep` does not occur, return
`(s, [], false)`. -/
def cut (s sep : List Char) : List Char × List Char × Bool :=
  match s with
  | [] => if beginsWith sep [] then ([], [], true) else ([], [], false)
  | c :: t =>
      if beginsWith sep (c :: t) then ([], (c :: t).drop sep.length, true)
      else
        let r := cut t sep
        (c :: r.1, r.2.1, r.2.2)

/-- The reserved 4-byte series/field separator `#!~#` of the storage key
format (source line 118). -/
def sepChars : List Char := "#!~#".data

/-- Modelled from the spec: measurement-name extraction from a series key
(`models.ParseKey`, an external collaborator of this package).  The series
key encodes `measurement[,tag=value]*` with backslash escaping, so the
measurement name is the part of the series key before the first unescaped
comma. -/
def measurementOf : List Char → List Char
  | [] => []
  | '\\' :: c :: t => '\\' :: c :: measurementOf t
  | ',' :: _ => []
  | c :: t => c :: measurementOf t

/-- The measurement name of a series key, as a `String` map key. -/
def parseKeyMeasurement (seriesKey : List Char) : String :=
  String.mk (measurementOf seriesKey)

/- ===== Counters (external report package, modelled from the spec) ===== -/

/-- A Counter implementation: the `report.Counter` interface contract
(`Add(item)`, `Count() -> uint64`) together with the factory
(`newCounterFn`) that creates fresh counters of this strategy. -/
structure CounterImpl (C : Type) where
  new : Unit → C
  add : C → List Char → C
  count : C → Nat

/-- Modelled from the spec: the exact Counter variant of the external report
package (`report.NewExactCounter`): a full deduplicating set of the items
seen; `Add` ignores items already present, `Count` is the number of distinct
items as a uint64. -/
def exactImpl : CounterImpl (List (List Char)) where
  new := fun _ => []
  add := fun items item => if item ∈ items then items else items ++ [item]
  count := fun items => items.length % 2 ^ 64

/- ===== The hierarchical index (source lines 177-202) ===== -/

/-- Counters for one (database, retention policy, measurement) bucket
(source type `fieldsAndSeries`). -/
structure fieldsAndSeries (C : Type) where
  fields : C
  series : C
deriving DecidableEq

/-- Source type `measurementFieldsAndSeries`: measurement name to bucket. -/
abbrev measurementFieldsAndSeries (C : Type) := List (String × fieldsAndSeries C)

/-- Source type `retentionPolicyMeasurements`: retention policy to inner map. -/
abbrev retentionPolicyMeasurements (C : Type) := List (String × measurementFieldsAndSeries C)

/-- Source type `databaseRetentionPolicies`: database to inner map. -/
abbrev databaseRetentionPolicies (C : Type) := List (String × retentionPolicyMeasurements C)

/-- Go map read `m[k]` on a string-keyed association list. -/
def lookupA {A : Type} : List (String × A) → String → Option A
  | [], _ => none
  | (k, v) :: t, k2 => if k = k2 then some v else lookupA t k2

/-- Go map write `m[k] = v` on a string-keyed association list: replace the
binding in place or append a new one. -/
def updateA {A : Type} : List (String × A) → String → A → List (String × A)
  | [], k, v => [(k, v)]
  | (k1, v1) :: t, k, v => if k1 = k then (k, v) :: t else (k1, v1) :: updateA t k v

/-- Lookup of the bucket of one (database, retention policy, measurement)
triple in the index. -/
def lookupTriple {C : Type} (toto : databaseRetentionPolicies C) (db rp ms : String) :
    Option (fieldsAndSeries C) :=
  (lookupA toto db).bind fun rpMap => (lookupA rpMap rp).bind fun mm => lookupA mm ms

/-- Embedding of source `initFieldsAndSeries` (lines 185-202): get-or-create
at each of the three levels, returning the bucket of the triple together with
the index in which it is present.  Writing back a level that was already
present stores the value just read, which is what the source's in-place map
mutation leaves behind. -/
def initFieldsAndSeries {C : Type} (toto : databaseRetentionPolicies C) (db rp ms : String)
    (fn : Unit → C) : fieldsAndSeries C × databaseRetentionPolicies C :=
  let rpMap := (lookupA toto db).getD []
  let measurementMap := (lookupA rpMap rp).getD []
  let m := (lookupA measurementMap ms).getD ⟨fn (), fn ()⟩
  (m, updateA toto db (updateA rpMap rp (updateA measurementMap ms m)))

/-- Store a bucket at a triple, keeping every sibling binding: the effect of
the source's mutation of the bucket reached through the `*fieldsAndSeries`
pointer returned by `initFieldsAndSeries`. -/
def setTriple {C : Type} (toto : databaseRetentionPolicies C) (db rp ms : String)
    (b : fieldsAndSeries C) : databaseRetentionPolicies C :=
  let rpMap := (lookupA toto db).getD []
  let measurementMap := (lookupA rpMap rp).getD []
  updateA toto db (updateA rpMap rp (updateA measurementMap ms b))

/-- One iteration of the key loop of `Run` (source lines 116-123): cut the raw
key on the separator, extract the measurement name from the series-key part,
get-or-create the bucket for (db, rp, measurement), then add the whole raw
key to its series Counter and the field-name part to its fields Counter. -/
def processKey {C : Type} (impl : CounterImpl C) (dbMap : databaseRetentionPolicies C)
    (db rp : String) (key : List Char) : databaseRetentionPolicies C :=
  let parts := cut key sepChars
  let ms := parseKeyMeasurement parts.1
  let fs := (initFieldsAndSeries dbMap db rp ms impl.new).1
  let dbMap1 := (initFieldsAndSeries dbMap db rp ms impl.new).2
  setTriple dbMap1 db rp ms ⟨impl.add fs.fields parts.2.1, impl.add fs.series key⟩

/- ===== Shard discovery (filepath.Walk, source lines 64-92) ===== -/

/-- Value of a decimal digit string. -/
def digitsVal (ds : List Char) : Nat :=
  ds.foldl (fun a c => a * 10 + (c.toNat - 48)) 0

/-- Embedding of Go `strconv.Atoi` (= `ParseInt(s, 10, 0)` with 64-bit `int`):
an optional sign followed by at least one decimal digit, rejected when the
value falls outside the `int64` range. -/
def atoi (s : String) : Option Int :=
  match s.data with
  | [] => none
  | '+' :: ds =>
      if ds ≠ [] ∧ ds.all Char.isDigit ∧ digitsVal ds ≤ 2 ^ 63 - 1 then
        some (digitsVal ds) else none
  | '-' :: ds =>
      if ds ≠ [] ∧ ds.all Char.isDigit ∧ digitsVal ds ≤ 2 ^ 63 then
        some (-(digitsVal ds : Int)) else none
  | ds =>
      if ds.all Char.isDigit ∧ digitsVal ds ≤ 2 ^ 63 - 1 then
        some (digitsVal ds) else none

/-- The Go conversion `uint64(id)` applied to an `int`: reduction modulo
`2 ^ 64`, so negative values wrap around. -/
def uint64OfInt (i : Int) : Nat := (i % (2 ^ 64 : Int)).toNat

/-- Modelled from the spec: the engine's reserved series-file directory name
(`tsdb.SeriesFileDirectory`, declared outside this package). -/
def seriesFileDirectory : String := "_series"

/-- A directory tree under the `-db-path` root.  Children are listed in the
lexical name order in which `filepath.Walk` visits directory entries. -/
inductive FsTree where
  | file (name : String)
  | dir (name : String) (children : List FsTree)

/-- The base name of a tree node (`info.Name()` in the walk callback). -/
def treeName : FsTree → String
  | .file n => n
  | .dir n _ => n

/-- The field `cmd.shardPaths`: Go map from shard id (uint64) to path. -/
abbrev ShardMap := List (Nat × String)

/-- Go map write `shardPaths[id] = path`. -/
def updateShard : ShardMap → Nat → String → ShardMap
  | [], k, v => [(k, v)]
  | (k1, v1) :: t, k, v => if k1 = k then (k, v) :: t else (k1, v1) :: updateShard t k v

/-- Go map read `shardPaths[id]`. -/
def lookupShard : ShardMap → Nat → Option String
  | [], _ => none
  | (k, v) :: t, k2 => if k = k2 then some v else lookupShard t k2

mutual
/-- Embedding of the `filepath.Walk` callback of `Run` (source lines 64-87)
applied to one visited node: files are ignored; a directory named as the
series-file directory or `index` is skipped entirely (`filepath.SkipDir`,
no registration, no descent); otherwise the directory is registered under
`uint64(id)` when `strconv.Atoi` accepts its name, and its children are
then visited in order. -/
def walkTree (sd path : String) (m : ShardMap) : FsTree → ShardMap
  | .file _ => m
  | .dir name children =>
      if name = sd ∨ name = "index" then m
      else
        walkList sd path
          (match atoi name with
           | some v => updateShard m (uint64OfInt v) path
           | none => m) children
/-- Visit the children of a directory in order, threading the shard map;
each child is visited at path `parent ++ "/" ++ child name`. -/
def walkList (sd path : String) (m : ShardMap) : List FsTree → ShardMap
  | [] => m
  | t :: ts => walkList sd path (walkTree sd (path ++ "/" ++ treeName t) m t) ts
end

/- ===== Per-file shard processing (source lines 101-133) ===== -/

/-- Outcome of opening one storage file, abstracting the filesystem and the
external TSM reader: the open can fail, the reader construction can fail, or
the reader yields the keys `KeyAt 0 .. KeyAt (KeyCount-1)` and closing it can
fail. -/
inductive FileCase where
  | openFail (msg : String)
  | readerFail (msg : String)
  | ok (keys : List (List Char)) (closeErr : Option String)

/-- One `(db, rp, id, path)` tuple delivered by the external shard-dir walker
(`reporthelper.WalkShardDirs`), together with what reading its file yields. -/
structure ShardFile where
  db : String
  rp : String
  id : String
  path : String
  data : FileCase

/-- Result of the per-file callback: the updated index, the warnings written
to standard error, and the error value returned to the walker. -/
structure FileOutcome (C : Type) where
  dbMap : databaseRetentionPolicies C
  warnings : List String
  err : Option String

/-- Embedding of the per-file callback of `Run` (source lines 102-128): an
open failure or reader-construction failure emits a skip warning and returns
`nil` leaving the index untouched; otherwise every key of the file is
processed and a close failure only emits a warning.  The callback returns
`nil` on every path. -/
def processFile {C : Type} (impl : CounterImpl C) (dbMap : databaseRetentionPolicies C)
    (f : ShardFile) : FileOutcome C :=
  match f.data with
  | .openFail msg =>
      ⟨dbMap, ["error: " ++ f.path ++ ": " ++ msg ++ ". Skipping."], none⟩
  | .readerFail msg =>
      ⟨dbMap, ["error: " ++ f.path ++ ": " ++ msg ++ ". Skipping."], none⟩
  | .ok keys closeErr =>
      let m2 := keys.foldl (fun acc key => processKey impl acc f.db f.rp key) dbMap
      match closeErr with
      | some msg => ⟨m2, ["error closing: " ++ f.path ++ ": " ++ msg ++ "."], none⟩
      | none => ⟨m2, [], none⟩

/-- Process the files of one shard in order, accumulating index and
warnings. -/
def processShardFiles {C : Type} (impl : CounterImpl C) (dbMap : databaseRetentionPolicies C)
    (files : List ShardFile) : databaseRetentionPolicies C × List String :=
  files.foldl
    (fun acc f =>
      let out := processFile impl acc.1 f
      (out.dbMap, acc.2 ++ out.warnings))
    (dbMap, [])

/- ===== Reporter (source lines 134-174) ===== -/

/-- One data row of the table printed by `Run`: the triple, its series and
field counts, and the derived cloud2 cardinality column. -/
structure ReportRow where
  db : String
  rp : String
  measurement : String
  series : Nat
  fields : Nat
  combined : Nat
deriving DecidableEq

/-- The printed report: its data rows, the total-row label suffix, and the
three totals of the trailing total row. -/
structure Report where
  rows : List ReportRow
  estTitle : String
  totalSeries : Nat
  totalFields : Nat
  totalCombined : Nat
deriving DecidableEq

/-- The data rows of the report, one per (database, retention policy,
measurement) triple of the index (source lines 146-166): the columns are
`series.Count()`, `fields.Count()` and their uint64 product. -/
def reportRows {C : Type} (impl : CounterImpl C) (dbMap : databaseRetentionPolicies C) :
    List ReportRow :=
  (dbMap.map (fun dp =>
    (dp.2.map (fun rpp =>
      rpp.2.map (fun mp =>
        let s := impl.count mp.2.series
        let f := impl.count mp.2.fields
        ⟨dp.1, rpp.1, mp.1, s, f, s * f % 2 ^ 64⟩))).flatten)).flatten

/-- The three accumulators of the total row (`seriesTotal`, `fieldsTotal`,
`c2Cardinality`, source lines 135-137 and 161-163): uint64 running sums over
the rows. -/
def reportTotals (rows : List ReportRow) : Nat × Nat × Nat :=
  rows.foldl
    (fun t row =>
      ((t.1 + row.series) % 2 ^ 64, (t.2.1 + row.fields) % 2 ^ 64,
        (t.2.2 + row.combined) % 2 ^ 64))
    (0, 0, 0)

/-- Assemble the report printed by `Run` (source lines 134-174). -/
def buildReport {C : Type} (impl : CounterImpl C) (estTitle : String)
    (dbMap : databaseRetentionPolicies C) : Report :=
  let rows := reportRows impl dbMap
  let t := reportTotals rows
  ⟨rows, estTitle, t.1, t.2.1, t.2.2⟩

/- ===== The command (source lines 22-175) ===== -/

/-- The configuration of the source `Command` struct that `Run` reads:
`dbPath`, `exact`, and the `concurrency` knob parsed from `-c`. -/
structure Command where
  dbPath : String
  exact : Bool
  concurrency : Nat

/-- What a run produces: the lines written to standard error, the report
written to standard output (`none` when no report is printed), and the fatal
error returned by `Run`. -/
structure RunResult where
  stderrLines : List String
  report : Option Report
  err : Option String
deriving DecidableEq

/-- Embedding of `Run` (source lines 46-175) after flag parsing.  `impl` is
the Counter strategy picked once per run by `newCounterFn` (exact when
`cmd.exact`, the external HLL strategy otherwise); `root` is the directory
tree under `cmd.dbPath`; `env` maps a discovered shard path to the
`(db, rp, id, path)` file tuples the external shard-dir walker enumerates
beneath it.  A missing `-db-path` is fatal; an empty shard map emits the
no-shards diagnostic and returns `nil` without printing a report; otherwise
every shard's files are processed and the report is printed. -/
def Run {C : Type} (impl : CounterImpl C) (cmd : Command) (root : FsTree)
    (env : String → List ShardFile) : RunResult :=
  if cmd.dbPath = "" then
    ⟨[], none, some "path to databaseRetentionPolicies must be provided"⟩
  else
    let shardPaths := walkTree seriesFileDirectory cmd.dbPath [] root
    if shardPaths = [] then
      ⟨["No shards under " ++ cmd.dbPath], none, none⟩
    else
      let estTitle := if cmd.exact then "" else " (estimated)"
      let acc := shardPaths.foldl
        (fun (acc : databaseRetentionPolicies C × List String) pr =>
          let out := processShardFiles impl acc.1 (env pr.2)
          (out.1, acc.2 ++ out.2))
        ([], [])
      ⟨acc.2, some (buildReport impl estTitle acc.1), none⟩

example : walkTree seriesFileDirectory "data" [] (.dir "data" [.dir "7" []]) = [(7, "data/7")] := by decide
example : atoi "+7" = some 7 := by decide
example : atoi "-5" = some (-5) := by decide
example : atoi "007" = some 7 := by decide
example : atoi "x7" = none := by decide
example : uint64OfInt (-5) = 2 ^ 64 - 5 := by decide

/- ===== Lemmas about the association-list map operations ===== -/

theorem lookupA_updateA_self {A : Type} (l : List (String × A)) (k : String) (v : A) :
    lookupA (updateA l k v) k = some v := by
  induction l with
  | nil => simp [updateA, lookupA]
  | cons h t ih =>
      obtain ⟨k1, v1⟩ := h
      by_cases hk : k1 = k
      · simp [updateA, hk, lookupA]
      · simp [updateA, hk, lookupA, ih]

theorem lookupA_updateA_ne {A : Type} (l : List (String × A)) (k k2 : String) (v : A)
    (h : k ≠ k2) : lookupA (updateA l k v) k2 = lookupA l k2 := by
  induction l with
  | nil => simp [updateA, lookupA, h]
  | cons hd t ih =>
      obtain ⟨k1, v1⟩ := hd
      by_cases hk : k1 = k
      · subst hk
        simp [updateA, lookupA, h]
      · simp [updateA, hk, lookupA, ih]

theorem updateA_self_of_lookup {A : Type} (l : List (String × A)) (k : String) (v : A)
    (h : lookupA l k = some v) : updateA l k v = l := by
  induction l with
  | nil => simp [lookupA] at h
  | cons hd t ih =>
      obtain ⟨k1, v1⟩ := hd
      by_cases hk : k1 = k
      · subst hk
        simp [lookupA] at h
        simp [updateA, h]
      · simp [lookupA, hk] at h
        simp [updateA, hk, ih h]

theorem lookupShard_updateShard_self (m : ShardMap) (k : Nat) (v : String) :
    lookupShard (updateShard m k v) k = some v := by
  induction m with
  | nil => simp [updateShard, lookupShard]
  | cons h t ih =>
      obtain ⟨k1, v1⟩ := h
      by_cases hk : k1 = k
      · simp [updateShard, hk, lookupShard]
      · simp [updateShard, hk, lookupShard, ih]

/- ===== Lemmas about the hierarchical index ===== -/

theorem initFieldsAndSeries_fst {C : Type} (toto : databaseRetentionPolicies C)
    (db rp ms : String) (fn : Unit → C) :
    (initFieldsAndSeries toto db rp ms fn).1 =
      (lookupTriple toto db rp ms).getD ⟨fn (), fn ()⟩ := by
  unfold initFieldsAndSeries lookupTriple
  cases h1 : lookupA toto db with
  | none => simp [h1, lookupA]
  | some rpMap =>
      cases h2 : lookupA rpMap rp with
      | none => simp [h2, lookupA]
      | some mm => cases h3 : lookupA mm ms <;> simp [h2, h3]

theorem initFieldsAndSeries_snd {C : Type} (toto : databaseRetentionPolicies C)
    (db rp ms : String) (fn : Unit → C) :
    (initFieldsAndSeries toto db rp ms fn).2 =
      setTriple toto db rp ms (initFieldsAndSeries toto db rp ms fn).1 := rfl

theorem lookupTriple_setTriple_self {C : Type} (toto : databaseRetentionPolicies C)
    (db rp ms : String) (b : fieldsAndSeries C) :
    lookupTriple (setTriple toto db rp ms b) db rp ms = some b := by
  unfold lookupTriple setTriple
  simp [lookupA_updateA_self]

theorem initFieldsAndSeries_found {C : Type} (toto : databaseRetentionPolicies C)
    (db rp ms : String) (fn : Unit → C) (b : fieldsAndSeries C)
    (h : lookupTriple toto db rp ms = some b) :
    initFieldsAndSeries toto db rp ms fn = (b, toto) := by
  unfold lookupTriple at h
  cases h1 : lookupA toto db with
  | none => simp [h1] at h
  | some rpMap =>
      simp only [h1, Option.some_bind'] at h
      cases h2 : lookupA rpMap rp with
      | none => simp [h2] at h
      | some mm =>
          simp only [h2, Option.some_bind'] at h
          cases h3 : lookupA mm ms with
          | none => simp [h3] at h
          | some b2 =>
              simp only [h3, Option.some.injEq] at h
              subst h
              unfold initFieldsAndSeries
              simp only [h1, h2, h3, Option.getD_some]
              simp [updateA_self_of_lookup _ _ _ h3, updateA_self_of_lookup _ _ _ h2,
                updateA_self_of_lookup _ _ _ h1]

theorem lookupTriple_setTriple_frame {C : Type} (toto : databaseRetentionPolicies C)
    (db rp ms d r s : String) (b : fieldsAndSeries C)
    (h : ¬(db = d ∧ rp = r ∧ ms = s)) :
    lookupTriple (setTriple toto db rp ms b) d r s = lookupTriple toto d r s := by
  unfold lookupTriple setTriple
  by_cases hd : db = d
  · subst hd
    simp only [lookupA_updateA_self, Option.some_bind']
    by_cases hr : rp = r
    · subst hr
      simp only [lookupA_updateA_self, Option.some_bind']
      have hs : ms ≠ s := by tauto
      rw [lookupA_updateA_ne _ _ _ _ hs]
      cases h1 : lookupA toto db with
      | none => simp [lookupA]
      | some rpMap =>
          simp only [Option.getD_some, Option.some_bind']
          cases h2 : lookupA rpMap rp with
          | none => simp [lookupA]
          | some mm => simp
    · rw [lookupA_updateA_ne _ _ _ _ hr]
      cases h1 : lookupA toto db with
      | none => simp [lookupA]
      | some rpMap => simp
  · rw [lookupA_updateA_ne _ _ _ _ hd]

/-- C6: a (database, retentionPolicy, measurement) triple never observed has
no entry in the index (the run starts from the empty index and
`initFieldsAndSeries` touches no triple other than its own); the first lookup
of a triple creates exactly one bucket holding fresh series and fields
Counters from the configured factory and stores it at the triple; and every
subsequent lookup of the same triple returns that same bucket with the index
unchanged — a bucket, once created, is never replaced, only mutated through
the write-back of `Add`. -/
theorem C6_lazy_bucket_creation {C : Type} (fn : Unit → C)
    (toto : databaseRetentionPolicies C) (db rp ms d r s : String) :
    lookupTriple ([] : databaseRetentionPolicies C) db rp ms = none ∧
    (lookupTriple toto db rp ms = none →
      (initFieldsAndSeries toto db rp ms fn).1 = ⟨fn (), fn ()⟩ ∧
      lookupTriple (initFieldsAndSeries toto db rp ms fn).2 db rp ms =
        some ⟨fn (), fn ()⟩) ∧
    (∀ b, lookupTriple toto db rp ms = some b →
      initFieldsAndSeries toto db rp ms fn = (b, toto)) ∧
    (¬(db = d ∧ rp = r ∧ ms = s) →
      lookupTriple (initFieldsAndSeries toto db rp ms fn).2 d r s =
        lookupTriple toto d r s) := by
  refine ⟨by simp [lookupTriple, lookupA], ?_, ?_, ?_⟩
  · intro h
    refine ⟨by rw [initFieldsAndSeries_fst, h]; rfl, ?_⟩
    rw [initFieldsAndSeries_snd, lookupTriple_setTriple_self, initFieldsAndSeries_fst, h]
    rfl
  · intro b h
    exact initFieldsAndSeries_found toto db rp ms fn b h
  · intro h
    rw [initFieldsAndSeries_snd]
    exact lookupTriple_setTriple_frame toto db rp ms d r s _ h

theorem C6_lazy_bucket_creation_witness :
    ((initFieldsAndSeries ([] : databaseRetentionPolicies (List (List Char)))
        "db0" "autogen" "cpu" (fun _ => [])).1 = ⟨[], []⟩ ∧
      lookupTriple (initFieldsAndSeries ([] : databaseRetentionPolicies (List (List Char)))
        "db0" "autogen" "cpu" (fun _ => [])).2 "db0" "autogen" "cpu" = some ⟨[], []⟩) ∧
    initFieldsAndSeries [("db0", [("autogen", [("cpu",
        (⟨[[]], [[]]⟩ : fieldsAndSeries (List (List Char))))])])]
        "db0" "autogen" "cpu" (fun _ => []) =
      (⟨[[]], [[]]⟩, [("db0", [("autogen", [("cpu", ⟨[[]], [[]]⟩)])])]) :=
  ⟨(C6_lazy_bucket_creation (fun _ => []) [] "db0" "autogen" "cpu" "x" "y" "z").2.1
      (by decide),
    (C6_lazy_bucket_creation (fun _ => [])
        [("db0", [("autogen", [("cpu", ⟨[[]], [[]]⟩)])])]
        "db0" "autogen" "cpu" "x" "y" "z").2.2.1 ⟨[[]], [[]]⟩ (by decide)⟩

/-- C1 (counterexample): the shard-processing loop adds the WHOLE raw key to
the series Counter (source line 121), not the series-key part produced by
decomposition, so two raw keys with the same series-key part but different
field names contribute TWO distinct series items, not one. -/
theorem C1_counterexample :
    (cut "cpu,host=a#!~#v2".data sepChars).1 = (cut "cpu,host=a#!~#v1".data sepChars).1 ∧
    (lookupTriple (processKey exactImpl [] "db0" "autogen" "cpu,host=a#!~#v1".data)
        "db0" "autogen" "cpu").map (fun b => b.series) = some ["cpu,host=a#!~#v1".data] ∧
    "cpu,host=a#!~#v1".data ≠ (cut "cpu,host=a#!~#v1".data sepChars).1 ∧
    (lookupTriple (processKey exactImpl (processKey exactImpl [] "db0" "autogen"
          "cpu,host=a#!~#v1".data) "db0" "autogen" "cpu,host=a#!~#v2".data)
        "db0" "autogen" "cpu").map (fun b => exactImpl.count b.series) = some 2 := by
  decide

/-- C1 (amended): for every key processed by the shard-processing loop, the
item added to the series Counter of the resolved (database, retentionPolicy,
measurement) bucket is the WHOLE raw key (source line 121), and the item
added to the fields Counter is the field-name part of the decomposition;
consequently, for one measurement, two raw keys with the same series-key
part but different field names contribute two distinct series items. -/
theorem C1_series_counter_raw_key {C : Type} (impl : CounterImpl C)
    (dbMap : databaseRetentionPolicies C) (db rp : String) (key : List Char) :
    lookupTriple (processKey impl dbMap db rp key) db rp
        (parseKeyMeasurement (cut key sepChars).1) =
      some
        ⟨impl.add ((lookupTriple dbMap db rp
              (parseKeyMeasurement (cut key sepChars).1)).getD
                ⟨impl.new (), impl.new ()⟩).fields (cut key sepChars).2.1,
          impl.add ((lookupTriple dbMap db rp
              (parseKeyMeasurement (cut key sepChars).1)).getD
                ⟨impl.new (), impl.new ()⟩).series key⟩ := by
  unfold processKey
  simp only [lookupTriple_setTriple_self, initFieldsAndSeries_fst]

/- ===== Reporter lemmas ===== -/

theorem reportTotals_foldl (rows : List ReportRow) (a b c : Nat) :
    rows.foldl
      (fun t row =>
        ((t.1 + row.series) % 2 ^ 64, (t.2.1 + row.fields) % 2 ^ 64,
          (t.2.2 + row.combined) % 2 ^ 64))
      (a % 2 ^ 64, b % 2 ^ 64, c % 2 ^ 64) =
      ((a + (rows.map ReportRow.series).sum) % 2 ^ 64,
        (b + (rows.map ReportRow.fields).sum) % 2 ^ 64,
        (c + (rows.map ReportRow.combined).sum) % 2 ^ 64) := by
  induction rows generalizing a b c with
  | nil => simp
  | cons r t ih =>
      simp only [List.foldl_cons, List.map_cons, List.sum_cons]
      rw [Nat.mod_add_mod, Nat.mod_add_mod, Nat.mod_add_mod, ih]
      simp [Nat.add_assoc]

/-- C5: every report row's combined-cardinality column equals the uint64
product of the series count and field count of its (database,
retentionPolicy, measurement) triple, and the final total row carries the
uint64 sums, over all triples, of the series counts, of the field counts and
of the per-triple products, each summed independently (the combined total is
the sum of the per-triple products, not the product of the totals). -/
theorem C5_combined_product_totals_sum {C : Type} (impl : CounterImpl C)
    (estT : String) (dbMap : databaseRetentionPolicies C) :
    (∀ row ∈ reportRows impl dbMap, row.combined = row.series * row.fields % 2 ^ 64) ∧
    (buildReport impl estT dbMap).rows = reportRows impl dbMap ∧
    (buildReport impl estT dbMap).totalSeries =
      ((reportRows impl dbMap).map ReportRow.series).sum % 2 ^ 64 ∧
    (buildReport impl estT dbMap).totalFields =
      ((reportRows impl dbMap).map ReportRow.fields).sum % 2 ^ 64 ∧
    (buildReport impl estT dbMap).totalCombined =
      ((reportRows impl dbMap).map ReportRow.combined).sum % 2 ^ 64 := by
  have ht : reportTotals (reportRows impl dbMap) =
      (((reportRows impl dbMap).map ReportRow.series).sum % 2 ^ 64,
        ((reportRows impl dbMap).map ReportRow.fields).sum % 2 ^ 64,
        ((reportRows impl dbMap).map ReportRow.combined).sum % 2 ^ 64) := by
    have h := reportTotals_foldl (reportRows impl dbMap) 0 0 0
    simpa [reportTotals] using h
  refine ⟨?_, rfl, ?_, ?_, ?_⟩
  · intro row hrow
    simp only [reportRows, List.mem_flatten, List.mem_map] at hrow
    obtain ⟨L, ⟨dp, hdp, rfl⟩, hrowL⟩ := hrow
    simp only [List.mem_flatten, List.mem_map] at hrowL
    obtain ⟨L2, ⟨rpp, hrpp, rfl⟩, hrow2⟩ := hrowL
    simp only [List.mem_map] at hrow2
    obtain ⟨mp, hmp, rfl⟩ := hrow2
    rfl
  · simp [buildReport, ht]
  · simp [buildReport, ht]
  · simp [buildReport, ht]

theorem C5_combined_product_totals_sum_witness :
    (⟨"d", "r", "m", 1, 1, 1⟩ : ReportRow).combined =
      (⟨"d", "r", "m", 1, 1, 1⟩ : ReportRow).series *
        (⟨"d", "r", "m", 1, 1, 1⟩ : ReportRow).fields % 2 ^ 64 :=
  (C5_combined_product_totals_sum exactImpl ""
      [("d", [("r", [("m", ⟨["v".data], ["k".data]⟩)])])]).1
    ⟨"d", "r", "m", 1, 1, 1⟩ (by decide)

/- ===== Error handling of the per-file callback ===== -/

/-- A per-file outcome that fails before any key can be read. -/
def FileCase.failed : FileCase → Bool
  | .openFail _ => true
  | .readerFail _ => true
  | .ok _ _ => false

/-- C7: the per-file callback of `Run` returns `nil` for every file; a file
whose open or reader construction fails only emits a warning and leaves the
index exactly as it was; a close failure only emits a warning and does not
change the accumulated counts; and in a shard holding one failing file and
one readable file, processing both yields the same index as processing the
readable file alone, so the readable file's keys are fully reflected. -/
theorem C7_skip_on_error_preserves {C : Type} (impl : CounterImpl C)
    (dbMap : databaseRetentionPolicies C) (bad good f : ShardFile)
    (keys : List (List Char)) (msg : String) (d r i p : String)
    (hbad : bad.data.failed = true) :
    (processFile impl dbMap f).err = none ∧
    (processFile impl dbMap bad).dbMap = dbMap ∧
    (processFile impl dbMap bad).warnings ≠ [] ∧
    (processShardFiles impl dbMap [bad, good]).1 =
      (processShardFiles impl dbMap [good]).1 ∧
    (processFile impl dbMap ⟨d, r, i, p, .ok keys (some msg)⟩).dbMap =
      (processFile impl dbMap ⟨d, r, i, p, .ok keys none⟩).dbMap := by
  refine ⟨?_, ?_, ?_, ?_, rfl⟩
  · rcases f with ⟨fd, fr, fi, fp, fdata⟩
    cases fdata with
    | openFail m => rfl
    | readerFail m => rfl
    | ok ks ce => cases ce <;> rfl
  · rcases bad with ⟨bd, br, bi, bp, bdata⟩
    cases bdata with
    | openFail m => rfl
    | readerFail m => rfl
    | ok ks ce => simp [FileCase.failed] at hbad
  · rcases bad with ⟨bd, br, bi, bp, bdata⟩
    cases bdata with
    | openFail m => simp [processFile]
    | readerFail m => simp [processFile]
    | ok ks ce => simp [FileCase.failed] at hbad
  · rcases bad with ⟨bd, br, bi, bp, bdata⟩
    cases bdata with
    | openFail m => simp [processShardFiles, processFile]
    | readerFail m => simp [processShardFiles, processFile]
    | ok ks ce => simp [FileCase.failed] at hbad

theorem C7_skip_on_error_preserves_witness :
    (processFile exactImpl [] ⟨"db0", "autogen", "1", "p1", .openFail "eperm"⟩).dbMap =
      ([] : databaseRetentionPolicies (List (List Char))) ∧
    (processShardFiles exactImpl []
        [⟨"db0", "autogen", "1", "p1", .openFail "eperm"⟩,
          ⟨"db0", "autogen", "1", "p2", .ok ["cpu#!~#v".data] none⟩]).1 =
      (processShardFiles exactImpl []
        [⟨"db0", "autogen", "1", "p2", .ok ["cpu#!~#v".data] none⟩]).1 :=
  ⟨(C7_skip_on_error_preserves exactImpl []
        ⟨"db0", "autogen", "1", "p1", .openFail "eperm"⟩
        ⟨"db0", "autogen", "1", "p2", .ok ["cpu#!~#v".data] none⟩
        ⟨"db0", "autogen", "1", "p1", .openFail "eperm"⟩ [] "x" "d" "r" "i" "p"
        (by decide)).2.1,
    (C7_skip_on_error_preserves exactImpl []
        ⟨"db0", "autogen", "1", "p1", .openFail "eperm"⟩
        ⟨"db0", "autogen", "1", "p2", .ok ["cpu#!~#v".data] none⟩
        ⟨"db0", "autogen", "1", "p1", .openFail "eperm"⟩ [] "x" "d" "r" "i" "p"
        (by decide)).2.2.2.1⟩

/- ===== Decomposition lemmas (bytes.Cut) ===== -/

theorem beginsWith_iff (p s : List Char) : beginsWith p s = true ↔ ∃ r, s = p ++ r := by
  induction p generalizing s with
  | nil => simp [beginsWith]
  | cons c cs ih =>
      cases s with
      | nil => simp [beginsWith]
      | cons d ds =>
          simp only [beginsWith, Bool.and_eq_true, decide_eq_true_eq, ih, List.cons_append,
            List.cons.injEq]
          constructor
          · rintro ⟨rfl, r, rfl⟩
            exact ⟨r, rfl, rfl⟩
          · rintro ⟨r, rfl, rfl⟩
            exact ⟨rfl, r, rfl⟩

theorem cut_of_not_contains (s sep : List Char) (h : containsSeq sep s = false) :
    cut s sep = (s, [], false) := by
  induction s with
  | nil =>
      simp only [containsSeq] at h
      simp [cut, h]
  | cons c t ih =>
      simp only [containsSeq, Bool.or_eq_false_iff] at h
      simp [cut, h.1, ih h.2]

theorem cut_of_contains (s sep : List Char) (h : containsSeq sep s = true) :
    (cut s sep).2.2 = true ∧
    s = (cut s sep).1 ++ sep ++ (cut s sep).2.1 ∧
    ∀ b a, s = b ++ sep ++ a → (cut s sep).1.length ≤ b.length := by
  induction s with
  | nil =>
      simp only [containsSeq] at h
      obtain ⟨r, hr⟩ := (beginsWith_iff sep []).1 h
      have hsep : sep = [] := by
        cases sep with
        | nil => rfl
        | cons x xs => simp at hr
      subst hsep
      simp [cut, beginsWith]
  | cons c t ih =>
      by_cases hb : beginsWith sep (c :: t) = true
      · obtain ⟨r, hr⟩ := (beginsWith_iff sep (c :: t)).1 hb
        refine ⟨by simp [cut, hb], ?_, ?_⟩
        · simp only [cut, hb, if_true, List.nil_append]
          rw [hr, List.drop_left]
        · intro b a hba
          simp [cut, hb]
      · have hc : containsSeq sep t = true := by
          simp only [containsSeq, Bool.or_eq_true] at h
          rcases h with h | h
          · exact absurd h hb
          · exact h
        obtain ⟨i1, i2, i3⟩ := ih hc
        have hcut : cut (c :: t) sep =
            (c :: (cut t sep).1, (cut t sep).2.1, (cut t sep).2.2) := by
          simp [cut, hb]
        refine ⟨by rw [hcut]; exact i1, by rw [hcut]; simpa using congrArg (c :: ·) i2, ?_⟩
        intro b a hba
        cases b with
        | nil =>
            exfalso
            apply hb
            exact (beginsWith_iff sep (c :: t)).2 ⟨a, by simpa using hba⟩
        | cons bh bt =>
            simp only [List.cons_append, List.cons.injEq] at hba
            rw [hcut]
            simpa using Nat.succ_le_succ (i3 bt a hba.2)

theorem containsSeq_all (x : List Char) : containsSeq [] x = true := by
  cases x <;> simp [containsSeq, beginsWith]

theorem containsSeq_iff (sep s : List Char) :
    containsSeq sep s = true ↔ ∃ b a, s = b ++ sep ++ a := by
  constructor
  · intro h
    obtain ⟨_, h2, _⟩ := cut_of_contains s sep h
    exact ⟨(cut s sep).1, (cut s sep).2.1, h2⟩
  · rintro ⟨b, a, rfl⟩
    induction b with
    | nil =>
        cases hsep : sep with
        | nil => simpa using containsSeq_all a
        | cons sc st =>
            simp only [List.nil_append, List.cons_append, containsSeq, Bool.or_eq_true]
            left
            exact (beginsWith_iff (sc :: st) (sc :: (st ++ a))).2 ⟨a, by simp⟩
    | cons bh bt ih =>
        simp only [List.cons_append, containsSeq, Bool.or_eq_true]
        right
        exact ih

/-- C8: key decomposition is total and raises no error: a raw key that does
not contain the 4-byte separator token `#!~#` is returned whole as the
series-key part with an empty field-name part, and a key that does contain
it is split at its FIRST occurrence; the boolean containment test agrees
with the existence of a decomposition around the separator. -/
theorem C8_decomposition_total_first_cut (key : List Char) :
    (containsSeq sepChars key = false → cut key sepChars = (key, [], false)) ∧
    (∀ b a, key = b ++ sepChars ++ a →
      (cut key sepChars).2.2 = true ∧
      key = (cut key sepChars).1 ++ sepChars ++ (cut key sepChars).2.1 ∧
      (cut key sepChars).1.length ≤ b.length) ∧
    (containsSeq sepChars key = true ↔ ∃ b a, key = b ++ sepChars ++ a) := by
  refine ⟨fun h => cut_of_not_contains key sepChars h, fun b a hba => ?_,
    containsSeq_iff sepChars key⟩
  have hc : containsSeq sepChars key = true :=
    (containsSeq_iff sepChars key).2 ⟨b, a, hba⟩
  obtain ⟨h1, h2, h3⟩ := cut_of_contains key sepChars hc
  exact ⟨h1, h2, h3 b a hba⟩

theorem C8_decomposition_total_first_cut_witness :
    cut "cpumem".data sepChars = ("cpumem".data, [], false) ∧
    (cut "a#!~#b#!~#c".data sepChars).2.2 = true ∧
    "a#!~#b#!~#c".data =
      (cut "a#!~#b#!~#c".data sepChars).1 ++ sepChars ++
        (cut "a#!~#b#!~#c".data sepChars).2.1 ∧
    (cut "a#!~#b#!~#c".data sepChars).1.length ≤ ("a".data).length :=
  ⟨(C8_decomposition_total_first_cut "cpumem".data).1 (by decide),
    ((C8_decomposition_total_first_cut "a#!~#b#!~#c".data).2.1 "a".data "b#!~#c".data
      (by decide)).1,
    ((C8_decomposition_total_first_cut "a#!~#b#!~#c".data).2.1 "a".data "b#!~#c".data
      (by decide)).2.1,
    ((C8_decomposition_total_first_cut "a#!~#b#!~#c".data).2.1 "a".data "b#!~#c".data
      (by decide)).2.2⟩

/- ===== Run-level behavior ===== -/

/-- C2 (counterexample): on a root with zero qualifying shard directories the
run emits the no-shards diagnostic and returns without a fatal error, but it
prints NO report at all — there is no header-and-total-rows report, because
`Run` returns right after the diagnostic (source lines 89-92). -/
theorem C2_counterexample :
    (Run exactImpl ⟨"data", true, 4⟩ (.dir "data" []) (fun _ => [])).report = none ∧
    (Run exactImpl ⟨"data", true, 4⟩ (.dir "data" []) (fun _ => [])).err = none ∧
    (Run exactImpl ⟨"data", true, 4⟩ (.dir "data" []) (fun _ => [])).stderrLines =
      ["No shards under data"] := by
  decide

/-- C2 (amended): for every run whose shard discovery finds zero qualifying
shard directories, `Run` writes the "No shards under <path>" diagnostic to
standard error and returns without a fatal error, printing no report. -/
theorem C2_no_shards_diagnostic {C : Type} (impl : CounterImpl C) (cmd : Command)
    (root : FsTree) (env : String → List ShardFile) (h1 : cmd.dbPath ≠ "")
    (h2 : walkTree seriesFileDirectory cmd.dbPath [] root = []) :
    Run impl cmd root env = ⟨["No shards under " ++ cmd.dbPath], none, none⟩ := by
  simp [Run, h1, h2]

theorem C2_no_shards_diagnostic_witness :
    Run exactImpl ⟨"data", false, 8⟩ (.dir "data" [.file "junk"]) (fun _ => []) =
      ⟨["No shards under data"], none, none⟩ :=
  C2_no_shards_diagnostic exactImpl ⟨"data", false, 8⟩ (.dir "data" [.file "junk"])
    (fun _ => []) (by decide) (by decide)

/-- C3 (counterexample): a directory named `-5` does not parse as a
NON-NEGATIVE integer, yet shard discovery registers it: `strconv.Atoi`
accepts signed integers and the `uint64(id)` conversion wraps the negative
value around, so the claimed "exactly when its name parses as a non-negative
integer" is false. -/
theorem C3_counterexample :
    walkTree seriesFileDirectory "data" [] (.dir "data" [.dir "-5" []]) =
      [(18446744073709551611, "data/-5")] := by
  decide

/-- C3 (amended): during shard discovery a directory named exactly as the
engine's series-file directory or exactly "index" is never registered and is
not descended into; any other leaf directory is registered exactly when
`strconv.Atoi` accepts its name as a signed 64-bit integer (negative values
wrapping to uint64 keys), and is left unregistered when parsing fails. -/
theorem C3_directory_filtering (sd path name : String) (children : List FsTree)
    (m : ShardMap) :
    (name = sd ∨ name = "index" → walkTree sd path m (.dir name children) = m) ∧
    (name ≠ sd → name ≠ "index" →
      walkTree sd path m (.dir name []) =
        (match atoi name with
         | some v => updateShard m (uint64OfInt v) path
         | none => m)) := by
  constructor
  · intro h
    simp [walkTree, h]
  · intro h1 h2
    simp [walkTree, h1, h2, walkList]

theorem C3_directory_filtering_witness :
    walkTree seriesFileDirectory "data" [] (.dir "index" [.dir "7" []]) = [] ∧
    walkTree seriesFileDirectory "data/db0/autogen/42" [] (.dir "42" []) =
      [(42, "data/db0/autogen/42")] ∧
    walkTree seriesFileDirectory "data/db0" [] (.dir "db0" []) = [] :=
  ⟨(C3_directory_filtering seriesFileDirectory "data" "index" [.dir "7" []] []).1
      (Or.inr rfl),
    (C3_directory_filtering seriesFileDirectory "data/db0/autogen/42" "42" [] []).2
      (by decide) (by decide),
    (C3_directory_filtering seriesFileDirectory "data/db0" "db0" [] []).2
      (by decide) (by decide)⟩

/-- C9: the concurrency-level value parsed from `-c` is stored in the
command but never read by `Run` (source line 49: the field is set, and no
later statement of `Run` consults it), so two runs that differ only in the
concurrency value produce identical diagnostics, identical index contents
and identical report output. -/
theorem C9_concurrency_irrelevant {C : Type} (impl : CounterImpl C) (cmd : Command)
    (c1 c2 : Nat) (root : FsTree) (env : String → List ShardFile) :
    Run impl { cmd with concurrency := c1 } root env =
      Run impl { cmd with concurrency := c2 } root env := rfl

/-- C10: two distinct directories whose names parse to the same integer
value are both registered under the same uint64 key of the shard map, so the
later-walked path overwrites the earlier one and at most one of the two
directories is ever scanned; concretely, `+7`, `007` and `7` all collapse to
key 7 and only the last-walked path survives. -/
theorem C10_shard_id_collision (m : ShardMap) (k : Nat) (p1 p2 : String)
    (sd path1 path2 n1 n2 : String) (v : Int)
    (h1 : atoi n1 = some v) (h2 : atoi n2 = some v)
    (hs1 : n1 ≠ sd) (hi1 : n1 ≠ "index") (hs2 : n2 ≠ sd) (hi2 : n2 ≠ "index") :
    lookupShard (updateShard (updateShard m k p1) k p2) k = some p2 ∧
    walkTree sd path1 m (.dir n1 []) = updateShard m (uint64OfInt v) path1 ∧
    walkTree sd path2 m (.dir n2 []) = updateShard m (uint64OfInt v) path2 ∧
    walkTree seriesFileDirectory "data" []
        (.dir "data" [.dir "+7" [], .dir "007" [], .dir "7" []]) =
      [(7, "data/7")] := by
  refine ⟨lookupShard_updateShard_self _ _ _, ?_, ?_, by decide⟩
  · simp [walkTree, hs1, hi1, h1, walkList]
  · simp [walkTree, hs2, hi2, h2, walkList]

theorem C10_shard_id_collision_witness :
    lookupShard (updateShard (updateShard [] 7 "data/007") 7 "data/7") 7 =
      some "data/7" ∧
    walkTree seriesFileDirectory "data/007" [] (.dir "007" []) =
      updateShard [] (uint64OfInt 7) "data/007" ∧
    walkTree seriesFileDirectory "data/7" [] (.dir "7" []) =
      updateShard [] (uint64OfInt 7) "data/7" ∧
    walkTree seriesFileDirectory "data" []
        (.dir "data" [.dir "+7" [], .dir "007" [], .dir "7" []]) =
      [(7, "data/7")] :=
  C10_shard_id_collision [] 7 "data/007" "data/7" seriesFileDirectory "data/007"
    "data/7" "007" "7" 7 (by decide) (by decide) (by decide) (by decide)
    (by decide) (by decide)

/- ===== The concrete two-shard scenario ===== -/

/-- Directory tree of the concrete scenario: two shard directories `1` and
`2` under database `db0`, retention policy `autogen`. -/
def scenarioRoot : FsTree :=
  .dir "data" [.dir "db0" [.dir "autogen" [.dir "1" [], .dir "2" []]]]

/-- The storage files the shard-dir walker enumerates under each discovered
shard path: one readable file per shard, the three raw keys split across the
two files. -/
def scenarioEnv : String → List ShardFile := fun p =>
  if p = "data/db0/autogen/1" then
    [⟨"db0", "autogen", "1", p ++ "/000000001-000000001.tsm",
      .ok ["cpu,host=a#!~#value".data, "cpu,host=b#!~#value".data] none⟩]
  else if p = "data/db0/autogen/2" then
    [⟨"db0", "autogen", "2", p ++ "/000000001-000000001.tsm",
      .ok ["mem,host=a#!~#used".data] none⟩]
  else []

/-- C4: with two shards under db0/autogen, one storage file each, holding the
raw keys `cpu,host=a#!~#value`, `cpu,host=b#!~#value` and `mem,host=a#!~#used`
split across the two files, an exact-mode run reports measurement `cpu` with
series=2, fields=1, combined=2, measurement `mem` with series=1, fields=1,
combined=1, and totals series=3, fields=2, combined=3, with no diagnostics
and no fatal error. -/
theorem C4_concrete_scenario :
    Run exactImpl ⟨"data", true, 1⟩ scenarioRoot scenarioEnv =
      ⟨[],
        some ⟨[⟨"db0", "autogen", "cpu", 2, 1, 2⟩, ⟨"db0", "autogen", "mem", 1, 1, 1⟩],
          "", 3, 2, 3⟩,
        none⟩ := by
  decide
